/-
  Verification of the bifrost session-lifecycle supervisor against its
  natural-language specification.

  Shallow embedding of:
  - the device-authorization poll loop of internal/sso/client.go
    (Authenticate, lines 75-105),
  - the tunnel process supervisor and keep-alive monitor of cmd/connect.go
    (startSSMPortForwardingWithKeepAlive, startKeepAliveWhenReady,
     startKeepAlive, performKeepAlive),
  - the port validator (validatePort, isPortInUse),
  - the token cache of internal/sso (getTokenCachePath, LoadTokenCache,
    SaveTokenCache), including a full executable SHA-1 over the start URL,
    the JSON field encoding of the TokenCache struct, and a filesystem state
    (home directory, directory permissions, file contents).

  Conventions of the embedding:
  - Wall-clock time is a Nat counter; a sleep of the provider interval
    advances it by the interval, every other action is instantaneous.
  - Cancellation of a context is the time at which ctx.Done() becomes ready
    (an Option Nat), or for the keep-alive loop a Bool per wait point saying
    whether the ctx.Done() select branch is taken there.
  - Operating-system boundaries (net.Listen failing, the subprocess exiting,
    a signal arriving, os.UserHomeDir) are inputs: a bound-port predicate,
    an environment record, a filesystem record.
  - Go machine integers are Int with the int64 overflow bound made explicit
    in atoi; time.Time is an epoch instant (Int).
-/
import Mathlib

set_option maxHeartbeats 1000000

namespace Bifrost

/-! ## Device-authorization poll loop (internal/sso/client.go, Authenticate) -/

/-- One observable step of the poll loop: the ctx.Done() select check at
time t, the time.Sleep from tStart to tEnd, or a CreateToken request at
time t. -/
inductive PollEvent
  | ctxCheck (t : Nat)
  | sleepStep (tStart tEnd : Nat)
  | poll (t : Nat)
  deriving DecidableEq, Repr

/-- How the polling phase of Authenticate ends. outOfFuel is an artifact of
the fuel parameter; authenticatePoll supplies enough fuel that it never
occurs. -/
inductive AuthOutcome
  | cancelled
  | timeout
  | token
  | outOfFuel
  deriving DecidableEq, Repr

/-- maxRetries := 30 of Authenticate. -/
def maxRetries : Nat := 30

/-- Whether ctx.Done() is ready at time t: the cancellation fired at some
time c with c ≤ t. -/
def ctxDone (cancelAt : Option Nat) (t : Nat) : Bool :=
  match cancelAt with
  | none => false
  | some c => decide (c ≤ t)

/-- The for-loop of Authenticate lines 79-105, translated step for step:
per iteration a select on ctx.Done() (before anything else), then the
retryCount >= maxRetries check, then time.Sleep(interval), then the
CreateToken request; on request failure retryCount increments and the loop
repeats. succeeds n says whether the CreateToken attempt number n (0-based)
returns without error. Returns the outcome and the trace of events. -/
def pollLoop (succeeds : Nat → Bool) (cancelAt : Option Nat) (interval : Nat) :
    Nat → Nat → Nat → AuthOutcome × List PollEvent
  | 0, _, _ => (.outOfFuel, [])
  | fuel + 1, retryCount, t =>
    if ctxDone cancelAt t then
      (.cancelled, [.ctxCheck t])
    else if maxRetries ≤ retryCount then
      (.timeout, [.ctxCheck t])
    else
      let t1 := t + interval
      if succeeds retryCount then
        (.token, [.ctxCheck t, .sleepStep t t1, .poll t1])
      else
        let rest := pollLoop succeeds cancelAt interval fuel (retryCount + 1) t1
        (rest.1, .ctxCheck t :: .sleepStep t t1 :: .poll t1 :: rest.2)

/-- The polling phase of Authenticate: retryCount starts at 0, time 0 is the
instant StartDeviceAuthorization returned; fuel maxRetries + 1 covers every
reachable iteration. -/
def authenticatePoll (succeeds : Nat → Bool) (cancelAt : Option Nat)
    (interval : Nat) : AuthOutcome × List PollEvent :=
  pollLoop succeeds cancelAt interval (maxRetries + 1) 0 0

/-- Recognizes a CreateToken request event. -/
def isPoll : PollEvent → Bool
  | .poll _ => true
  | _ => false

/-- Number of CreateToken requests in a trace. -/
def pollCount (evs : List PollEvent) : Nat := (evs.filter isPoll).length

/-! ## Keep-alive monitor (cmd/connect.go: performKeepAlive, startKeepAlive) -/

/-- performKeepAlive: a TCP dial to localhost on the forwarded port, closed
at once. reachable is whether the dial succeeds; the result is the Go error
(none for nil). -/
def performKeepAlive (reachable : Bool) : Option String :=
  if reachable then none
  else some "failed to connect to local port"

/-- startKeepAlive: for { select { case ctx.Done: return; case ticker.C:
performKeepAlive; on error only log a warning and continue } }. Tick n is
the n-th wait point; cancelAt n says whether the ctx.Done() branch is taken
there (ready and selected). reach n is whether probe n would succeed. The
source loop is unbounded, so the embedding takes fuel = how many wait points
are observed; the trace lists (tick, probe succeeded) for every probe that
ran. -/
def startKeepAlive (reach : Nat → Bool) (cancelAt : Nat → Bool) :
    Nat → Nat → List (Nat × Bool)
  | 0, _ => []
  | fuel + 1, n =>
    if cancelAt n then []
    else (n, (performKeepAlive (reach n)).isNone) ::
      startKeepAlive reach cancelAt fuel (n + 1)

/-! ## Tunnel process supervisor
(cmd/connect.go, startSSMPortForwardingWithKeepAlive lines 988-1025) -/

/-- A Go error value: an exit code of the subprocess or another message. -/
inductive GoErr
  | exitCode (c : Nat)
  | other (msg : String)
  deriving DecidableEq, Repr

/-- Which channel the select at lines 1008-1025 receives from first:
errChan (the cmd.Run goroutine delivered the subprocess outcome) or sigChan
(an OS SIGINT/SIGTERM arrived). The caller passes no context in, so no
third raced event exists in the source. -/
inductive FirstEvent
  | procExit
  | osSignal
  deriving DecidableEq, Repr

/-- The environment one run of the supervisor executes against. -/
structure SupervisorEnv where
  /-- the keepAlive flag argument -/
  keepAlive : Bool
  /-- which raced channel is received from first -/
  firstEvent : FirstEvent
  /-- what cmd.Run() returned, when firstEvent is procExit -/
  runResult : Option GoErr
  /-- whether cmd.Process is non-nil when the signal branch inspects it -/
  processHandle : Bool
  /-- whether cmd.Process.Signal(SIGTERM) returns an error -/
  sigtermFails : Bool
  /-- whether the subprocess has exited by the end of the one-second grace
  sleep (equivalently, whether the cmd.Run goroutine has finished) -/
  exitedByGraceEnd : Bool
  deriving DecidableEq, Repr

/-- The externally visible actions of one supervisor run, in order. -/
inductive SupervisorAction
  | registerSignalHandler
  | startCmdGoroutine
  | startKeepAliveGoroutine
  | printShutdownNotice
  | cancelContext
  | sendSigterm
  | warnSigtermFailed
  | sleepGraceSecond
  deriving DecidableEq, Repr

/-- What a supervisor run returns and what is left behind at the instant
the function returns. -/
structure SupervisorResult where
  /-- the function's return value (none = nil error) -/
  retErr : Option GoErr
  /-- the actions performed, in program order -/
  actions : List SupervisorAction
  /-- the internal context has been cancelled (explicit cancel() on the
  signal path, the deferred cancel() on the exit path) -/
  ctxCancelledAtReturn : Bool
  /-- signal.Notify(sigChan, SIGINT, SIGTERM) is still registered: the
  source contains no signal.Stop -/
  sigHandlerRegisteredAtReturn : Bool
  /-- the goroutine running errChan <- cmd.Run() has not finished -/
  cmdGoroutineRunningAtReturn : Bool
  deriving DecidableEq, Repr

/-- startSSMPortForwardingWithKeepAlive, from the point the subprocess
command is ready: register the signal handler, start the cmd.Run goroutine,
start the keep-alive goroutine when enabled, then select over errChan and
sigChan. errChan first: return the subprocess outcome (the deferred
cancel() fires on the way out). sigChan first: print the shutdown notice,
cancel(), send SIGTERM when cmd.Process is non-nil (a failure only prints a
warning), sleep one second, return nil. -/
def startSSMPortForwardingWithKeepAlive (env : SupervisorEnv) :
    SupervisorResult :=
  let setup := [SupervisorAction.registerSignalHandler,
      SupervisorAction.startCmdGoroutine] ++
    (if env.keepAlive then [SupervisorAction.startKeepAliveGoroutine] else [])
  match env.firstEvent with
  | .procExit =>
      { retErr := env.runResult
        actions := setup
        ctxCancelledAtReturn := true
        sigHandlerRegisteredAtReturn := true
        cmdGoroutineRunningAtReturn := false }
  | .osSignal =>
      let term :=
        if env.processHandle then
          [SupervisorAction.sendSigterm] ++
            (if env.sigtermFails then [SupervisorAction.warnSigtermFailed]
             else [])
        else []
      { retErr := none
        actions := setup ++ [SupervisorAction.printShutdownNotice,
          SupervisorAction.cancelContext] ++ term ++
          [SupervisorAction.sleepGraceSecond]
        ctxCancelledAtReturn := true
        sigHandlerRegisteredAtReturn := true
        cmdGoroutineRunningAtReturn := !env.exitedByGraceEnd }

/-- A concrete supervisor run: keep-alive on, a signal arrives while the
subprocess is healthy, SIGTERM is delivered, the subprocess has not exited
when the grace second ends. -/
def supSignalEnv : SupervisorEnv :=
  { keepAlive := true
    firstEvent := .osSignal
    runResult := none
    processHandle := true
    sigtermFails := false
    exitedByGraceEnd := false }

/-! ## Port validator (cmd/connect.go: validatePort, isPortInUse) -/

/-- A socket operation of isPortInUse: the net.Listen bind attempt (failed
when the port is held) and the close of the probe listener. -/
inductive SockEvent
  | listenBind (port : Int)
  | listenFailed (port : Int)
  | closeListener (port : Int)
  deriving DecidableEq, Repr

/-- The errors validatePort returns. -/
inductive PortError
  | invalidPort (input : String)
  | outOfRange
  | inUse (port : Int)
  deriving DecidableEq, Repr

/-- One decimal digit of strconv.Atoi. -/
def decDigit (c : Char) : Option Nat :=
  if c.isDigit then some (c.toNat - 48) else none

/-- Accumulating decimal parse over the remaining characters. -/
def digitsValAux : List Char → Nat → Option Nat
  | [], acc => some acc
  | c :: cs, acc =>
    match decDigit c with
    | none => none
    | some d => digitsValAux cs (acc * 10 + d)

/-- A non-empty all-digit run, as a Nat. -/
def digitsVal : List Char → Option Nat
  | [] => none
  | cs => digitsValAux cs 0

/-- Largest int64, the overflow bound of strconv.Atoi on a 64-bit build. -/
def int64Max : Nat := 9223372036854775807

/-- strconv.Atoi: an optional single leading sign, then one or more decimal
digits, nothing else; values outside the int64 range are an error (none). -/
def atoi (s : String) : Option Int :=
  match s.data with
  | [] => none
  | '+' :: cs =>
    match digitsVal cs with
    | none => none
    | some n => if n ≤ int64Max then some (Int.ofNat n) else none
  | '-' :: cs =>
    match digitsVal cs with
    | none => none
    | some n => if n ≤ int64Max + 1 then some (-(Int.ofNat n)) else none
  | cs =>
    match digitsVal cs with
    | none => none
    | some n => if n ≤ int64Max then some (Int.ofNat n) else none

/-- isPortInUse: net.Listen("tcp", ":port"), reported in use exactly when
the bind fails (bound p models which local ports a listener currently
holds); on success the probe listener is closed at once. Returns the answer
and the socket operations performed. -/
def isPortInUse (bound : Int → Bool) (port : Int) : Bool × List SockEvent :=
  if bound port then (true, [.listenFailed port])
  else (false, [.listenBind port, .closeListener port])

/-- validatePort: strconv.Atoi, the range check 1..65535, then the
isPortInUse bind probe; socket operations happen only in the last step. -/
def validatePort (bound : Int → Bool) (input : String) :
    Except PortError Unit × List SockEvent :=
  match atoi input with
  | none => (.error (.invalidPort input), [])
  | some p =>
    if p < 1 ∨ p > 65535 then (.error .outOfRange, [])
    else
      let r := isPortInUse bound p
      if r.1 then (.error (.inUse p), r.2)
      else (.ok (), r.2)

/-- The effect of a list of socket operations on which ports are bound. -/
def applySockEvents (bound : Int → Bool) : List SockEvent → (Int → Bool)
  | [] => bound
  | .listenBind p :: evs =>
    applySockEvents (fun q => if q = p then true else bound q) evs
  | .listenFailed _ :: evs => applySockEvents bound evs
  | .closeListener p :: evs =>
    applySockEvents (fun q => if q = p then false else bound q) evs

/-! ## SHA-1 (crypto/sha1, used by getTokenCachePath for the file name) -/

/-- 2^32, the word modulus of SHA-1. -/
def w32 : Nat := 4294967296

/-- Rotate a 32-bit word left by n bits. -/
def rotl (n x : Nat) : Nat :=
  ((x <<< n) % w32) ||| (x >>> (32 - n))

/-- The SHA-1 round constant for round i. -/
def sha1K (i : Nat) : Nat :=
  if i < 20 then 0x5A827999
  else if i < 40 then 0x6ED9EBA1
  else if i < 60 then 0x8F1BBCDC
  else 0xCA62C1D6

/-- The SHA-1 round function for round i. -/
def sha1F (i b c d : Nat) : Nat :=
  if i < 20 then (b &&& c) ||| ((b ^^^ (w32 - 1)) &&& d)
  else if i < 40 then b ^^^ c ^^^ d
  else if i < 60 then (b &&& c) ||| (b &&& d) ||| (c &&& d)
  else b ^^^ c ^^^ d

/-- Big-endian 32-bit words from bytes, four at a time. -/
def bytesToWords : List Nat → List Nat
  | b0 :: b1 :: b2 :: b3 :: rest =>
    (((b0 * 256 + b1) * 256 + b2) * 256 + b3) :: bytesToWords rest
  | _ => []

/-- Extend the 16 block words by k more schedule words. -/
def sha1ExtendAux : Nat → Array Nat → Array Nat
  | 0, ws => ws
  | k + 1, ws =>
    let n := ws.size
    let v := rotl 1 ((ws.getD (n - 3) 0) ^^^ (ws.getD (n - 8) 0) ^^^
      (ws.getD (n - 14) 0) ^^^ (ws.getD (n - 16) 0))
    sha1ExtendAux k (ws.push v)

/-- The SHA-1 working state (a, b, c, d, e). -/
abbrev Sha1State := Nat × Nat × Nat × Nat × Nat

/-- One of the 80 SHA-1 rounds. -/
def sha1Round (ws : Array Nat) (st : Sha1State) (i : Nat) : Sha1State :=
  let (a, b, c, d, e) := st
  let temp := (rotl 5 a + sha1F i b c d + e + sha1K i + ws.getD i 0) % w32
  (temp, a, rotl 30 b, c, d)

/-- Compress one 64-byte block into the running digest. -/
def sha1Compress (h : Sha1State) (block : List Nat) : Sha1State :=
  let ws := sha1ExtendAux 64 (bytesToWords block).toArray
  let (h0, h1, h2, h3, h4) := h
  let (a, b, c, d, e) :=
    (List.range 80).foldl (fun st i => sha1Round ws st i) (h0, h1, h2, h3, h4)
  ((h0 + a) % w32, (h1 + b) % w32, (h2 + c) % w32, (h3 + d) % w32,
    (h4 + e) % w32)

/-- The eight big-endian bytes of the 64-bit message bit length. -/
def be8 (n : Nat) : List Nat :=
  [(n >>> 56) % 256, (n >>> 48) % 256, (n >>> 40) % 256, (n >>> 32) % 256,
   (n >>> 24) % 256, (n >>> 16) % 256, (n >>> 8) % 256, n % 256]

/-- Merkle-Damgard padding: 0x80, zeros to 56 mod 64, the bit length. -/
def sha1Pad (msg : List Nat) : List Nat :=
  let len := msg.length
  msg ++ 0x80 :: List.replicate ((119 - len % 64) % 64) 0 ++ be8 (len * 8)

/-- Process nblocks 64-byte blocks of bs. -/
def sha1Blocks (h : Sha1State) (bs : List Nat) : Nat → Sha1State
  | 0 => h
  | k + 1 => sha1Blocks (sha1Compress h (bs.take 64)) (bs.drop 64) k

/-- The SHA-1 digest of a byte list, as five 32-bit words. -/
def sha1Digest (msg : List Nat) : Sha1State :=
  let padded := sha1Pad msg
  sha1Blocks (0x67452301, 0xEFCDAB89, 0x98BADCFE, 0x10325476, 0xC3D2E1F0)
    padded (padded.length / 64)

/-- One lowercase hex digit. -/
def hexDigit (n : Nat) : Char :=
  if n < 10 then Char.ofNat (48 + n) else Char.ofNat (87 + n)

/-- A 32-bit word as eight lowercase hex digits. -/
def hex8 (n : Nat) : String :=
  String.mk ((List.range 8).map (fun i => hexDigit ((n >>> ((7 - i) * 4)) &&& 15)))

/-- The UTF-8 bytes of one character. -/
def utf8Bytes (c : Char) : List Nat :=
  let n := c.toNat
  if n < 0x80 then [n]
  else if n < 0x800 then [0xC0 + n / 64, 0x80 + n % 64]
  else if n < 0x10000 then
    [0xE0 + n / 4096, 0x80 + (n / 64) % 64, 0x80 + n % 64]
  else
    [0xF0 + n / 262144, 0x80 + (n / 4096) % 64, 0x80 + (n / 64) % 64,
     0x80 + n % 64]

/-- The UTF-8 bytes of a string (Go strings are UTF-8 byte sequences). -/
def strBytes (s : String) : List Nat :=
  (s.data.map utf8Bytes).flatten

/-- fmt.Sprintf("%x", sha1.Sum([]byte(s))): the lowercase hex digest. -/
def sha1HexOfString (s : String) : String :=
  let (h0, h1, h2, h3, h4) := sha1Digest (strBytes s)
  hex8 h0 ++ hex8 h1 ++ hex8 h2 ++ hex8 h3 ++ hex8 h4

/-! ## Token cache (internal/sso: TokenCache, getTokenCachePath,
LoadTokenCache, SaveTokenCache) -/

/-- The TokenCache struct. time.Time is embedded as an epoch instant. -/
structure TokenCache where
  AccessToken : String
  ExpiresAt : Int
  RefreshToken : String
  ClientId : String
  ClientSecret : String
  StartUrl : String
  Region : String
  deriving DecidableEq, Repr

/-- A JSON field value of the cache file: the strings of the struct, or the
encoded time instant. -/
inductive JVal
  | jstr (v : String)
  | jtime (v : Int)
  deriving DecidableEq, Repr

/-- The content of a cache file: the parsed JSON object (key-value fields),
or bytes json.Unmarshal rejects. -/
inductive JDoc
  | obj (fields : List (String × JVal))
  | malformed
  deriving DecidableEq, Repr

/-- json.Marshal of a TokenCache: one field per struct member, keyed by its
json struct tag. -/
def marshalTokenCache (t : TokenCache) : JDoc :=
  .obj [("accessToken", .jstr t.AccessToken),
        ("expiresAt", .jtime t.ExpiresAt),
        ("refreshToken", .jstr t.RefreshToken),
        ("clientId", .jstr t.ClientId),
        ("clientSecret", .jstr t.ClientSecret),
        ("startUrl", .jstr t.StartUrl),
        ("region", .jstr t.Region)]

/-- The value of key k in a JSON object. -/
def jlookup : List (String × JVal) → String → Option JVal
  | [], _ => none
  | (k0, v) :: fs, k => if k0 = k then some v else jlookup fs k

/-- Decode a string member: a missing key keeps Go's zero value, a value of
the wrong type is an unmarshal error. -/
def getJStr (fields : List (String × JVal)) (k : String) :
    Except String String :=
  match jlookup fields k with
  | none => .ok ""
  | some (.jstr v) => .ok v
  | some (.jtime _) => .error "json: cannot unmarshal into string field"

/-- Decode the time member, zero value 0. -/
def getJTime (fields : List (String × JVal)) (k : String) :
    Except String Int :=
  match jlookup fields k with
  | none => .ok 0
  | some (.jtime v) => .ok v
  | some (.jstr _) => .error "json: cannot unmarshal into time field"

/-- json.Unmarshal of a cache file into a TokenCache. -/
def unmarshalTokenCache : JDoc → Except String TokenCache
  | .malformed => .error "invalid character in cache file"
  | .obj fields => do
    let a ← getJStr fields "accessToken"
    let e ← getJTime fields "expiresAt"
    let r ← getJStr fields "refreshToken"
    let ci ← getJStr fields "clientId"
    let cs ← getJStr fields "clientSecret"
    let su ← getJStr fields "startUrl"
    let rg ← getJStr fields "region"
    .ok { AccessToken := a, ExpiresAt := e, RefreshToken := r,
          ClientId := ci, ClientSecret := cs, StartUrl := su, Region := rg }

/-- The filesystem state the cache functions run against: the result of
os.UserHomeDir, the directories with their permission bits, and the file
contents by path. -/
structure FS where
  home : Option String
  dirs : String → Option Nat
  files : String → Option JDoc

/-- os.Mkdir of one directory: created with the permission when missing,
untouched when present (os.MkdirAll leaves existing directories alone). -/
def mkdirOne (fs : FS) (path : String) (perm : Nat) : FS :=
  match fs.dirs path with
  | some _ => fs
  | none =>
    { fs with dirs := fun p => if p = path then some perm else fs.dirs p }

/-- os.MkdirAll along a list of ancestor paths, outermost first. -/
def mkdirAll (fs : FS) (chain : List String) (perm : Nat) : FS :=
  chain.foldl (fun a p => mkdirOne a p perm) fs

/-- The directories os.MkdirAll(cacheDir, 0700) touches for a home
directory h: filepath.Join(h, ".aws", "sso", "cache") and its missing
ancestors. -/
def cacheDirChain (home : String) : List String :=
  [home ++ "/.aws", home ++ "/.aws/sso", home ++ "/.aws/sso/cache"]

/-- filepath.Join(homeDir, ".aws", "sso", "cache"). -/
def ssoCacheDir (home : String) : String := home ++ "/.aws/sso/cache"

/-- Decimal 448 is the permission literal 0700 of the source. -/
def ownerOnlyDirPerm : Nat := 448

/-- filepath.Join(cacheDir, hash + ".json") for a home directory and a
start URL: the deterministic cache file path. -/
def cacheFilePath (home url : String) : String :=
  ssoCacheDir home ++ "/" ++ sha1HexOfString url ++ ".json"

/-- getTokenCachePath: os.UserHomeDir, os.MkdirAll(cacheDir, 0700), then
cacheDir/sha1hex(startURL).json. Returns the Go result and the filesystem
after the side effects. -/
def getTokenCachePath (fs : FS) (startURL : String) :
    Except String String × FS :=
  match fs.home with
  | none => (.error "$HOME is not defined", fs)
  | some h =>
    let fs2 := mkdirAll fs (cacheDirChain h) ownerOnlyDirPerm
    (.ok (cacheFilePath h startURL), fs2)

/-- LoadTokenCache: the cache path (with its mkdir side effect),
os.ReadFile returning nil, nil on a missing file, then json.Unmarshal. -/
def LoadTokenCache (fs : FS) (startURL : String) :
    Except String (Option TokenCache) × FS :=
  match getTokenCachePath fs startURL with
  | (.error e, fs2) => (.error e, fs2)
  | (.ok path, fs2) =>
    match fs2.files path with
    | none => (.ok none, fs2)
    | some doc =>
      match unmarshalTokenCache doc with
      | .error e => (.error e, fs2)
      | .ok t => (.ok (some t), fs2)

/-- SaveTokenCache: the cache path for token.StartUrl, json.Marshal, then
os.WriteFile (overwriting any prior entry at that path). -/
def SaveTokenCache (fs : FS) (t : TokenCache) : Except String Unit × FS :=
  match getTokenCachePath fs t.StartUrl with
  | (.error e, fs2) => (.error e, fs2)
  | (.ok path, fs2) =>
    (.ok (), { fs2 with files := fun p =>
      if p = path then some (marshalTokenCache t) else fs2.files p })

/-- A filesystem with a home directory and nothing under it. -/
def emptyFS : FS :=
  { home := some "/home/op", dirs := fun _ => none, files := fun _ => none }

/-- A concrete token for witnesses. -/
def sampleToken : TokenCache :=
  { AccessToken := "tok-123"
    ExpiresAt := 1700000000
    RefreshToken := ""
    ClientId := "cid"
    ClientSecret := "sec"
    StartUrl := "https://x.awsapps.com/start"
    Region := "eu-west-1" }

/-! ## Lemmas about the poll loop -/

theorem pollCount_nil : pollCount [] = 0 := rfl

theorem pollCount_cons (e : PollEvent) (evs : List PollEvent) :
    pollCount (e :: evs) = (if isPoll e then 1 else 0) + pollCount evs := by
  by_cases h : isPoll e
  · simp [pollCount, List.filter_cons, h]
    omega
  · simp [pollCount, List.filter_cons, h]

/-- When every CreateToken attempt fails and the context never fires, the
loop from retryCount r with the exact remaining fuel ends in timeout after
exactly maxRetries - r further attempts. -/
theorem pollLoop_timeout_of_no_success (i : Nat) :
    ∀ (k r t : Nat), r + k = maxRetries →
      (pollLoop (fun _ => false) none i (k + 1) r t).1 = AuthOutcome.timeout ∧
      pollCount (pollLoop (fun _ => false) none i (k + 1) r t).2 = k := by
  intro k
  induction k with
  | zero =>
    intro r t hr
    have hr0 : r = maxRetries := by omega
    subst hr0
    simp [pollLoop, ctxDone, pollCount, List.filter, isPoll]
  | succ k ih =>
    intro r t hr
    have hlt : ¬ maxRetries ≤ r := by omega
    have hrec := ih (r + 1) (t + i) (by omega)
    have h1 := hrec.1
    have h2 := hrec.2
    constructor
    · simpa [pollLoop, ctxDone, hlt] using h1
    · simp [pollLoop, ctxDone, hlt, pollCount_cons, isPoll] at h2 ⊢
      omega

/-- The loop never performs more attempts than the remaining budget
maxRetries - retryCount, in any environment. -/
theorem pollLoop_count_le (s : Nat → Bool) (c : Option Nat) (i : Nat) :
    ∀ (fuel r t : Nat),
      pollCount (pollLoop s c i fuel r t).2 ≤ maxRetries - r := by
  intro fuel
  induction fuel with
  | zero => intro r t; simp [pollLoop, pollCount]
  | succ fuel ih =>
    intro r t
    by_cases hc : ctxDone c t
    · simp [pollLoop, hc, pollCount, List.filter, isPoll]
    · by_cases hr : maxRetries ≤ r
      · simp [pollLoop, hc, hr, pollCount, List.filter, isPoll]
      · by_cases hs : s r
        · simp [pollLoop, hc, hr, hs, pollCount, List.filter, isPoll]
          omega
        · have := ih (r + 1) (t + i)
          simp [pollLoop, hc, hr, hs, pollCount_cons, isPoll]
          omega

/-- Every CreateToken request in the trace happens at the end of a sleep of
one interval that began at a pre-sleep boundary where the loop observed the
context not yet cancelled. -/
theorem pollLoop_poll_mem (s : Nat → Bool) (c : Option Nat) (i : Nat) :
    ∀ (fuel r t u : Nat),
      PollEvent.poll u ∈ (pollLoop s c i fuel r t).2 →
      ∃ t0, u = t0 + i ∧ ctxDone c t0 = false ∧
        PollEvent.sleepStep t0 u ∈ (pollLoop s c i fuel r t).2 := by
  intro fuel
  induction fuel with
  | zero => intro r t u hu; simp [pollLoop] at hu
  | succ fuel ih =>
    intro r t u hu
    by_cases hc : ctxDone c t
    · simp [pollLoop, hc] at hu
    · by_cases hr : maxRetries ≤ r
      · simp [pollLoop, hc, hr] at hu
      · by_cases hs : s r
        · simp only [pollLoop, hc, hr, hs, Bool.false_eq_true, if_false,
            if_neg hr, if_true, List.mem_cons, List.mem_singleton] at hu
          rcases hu with hu | hu | hu | hu
          · cases hu
          · cases hu
          · rcases PollEvent.poll.injEq u (t + i) ▸ hu with rfl
            exact ⟨t, by cases hu; rfl, by simpa using hc, by
              simp [pollLoop, hc, hr, hs]⟩
          · cases hu
        · simp only [pollLoop, hc, hr, hs, Bool.false_eq_true, if_false,
            if_neg hr, List.mem_cons] at hu
          rcases hu with hu | hu | hu | hu
          · cases hu
          · cases hu
          · cases hu
            exact ⟨t, rfl, by simpa using hc, by
              simp [pollLoop, hc, hr, hs]⟩
          · obtain ⟨t0, rfl, hc0, hmem⟩ := ih (r + 1) (t + i) u hu
            refine ⟨t0, rfl, hc0, ?_⟩
            simp only [pollLoop, hc, hr, hs, Bool.false_eq_true, if_false,
              if_neg hr, List.mem_cons]
            right; right; right; exact hmem

/-! ## C1, C4, C9: the device-authorization poll loop -/

/-- C1: if the provider never reports success and the caller's context
never fires, the poll loop of Authenticate ends with the timeout error
after exactly maxRetries = 30 CreateToken attempts; and in every
environment the loop never performs more than 30 attempts. -/
theorem authenticate_poll_hard_cap (succeeds : Nat → Bool) (interval : Nat)
    (hnever : ∀ n, succeeds n = false) :
    (authenticatePoll succeeds none interval).1 = AuthOutcome.timeout ∧
    pollCount (authenticatePoll succeeds none interval).2 = maxRetries ∧
    (∀ (s : Nat → Bool) (c : Option Nat) (i : Nat),
      pollCount (authenticatePoll s c i).2 ≤ maxRetries) := by
  have hfun : succeeds = fun _ => false := funext hnever
  subst hfun
  have hmain := pollLoop_timeout_of_no_success interval maxRetries 0 0
    (by omega)
  refine ⟨hmain.1, hmain.2, ?_⟩
  intro s c i
  simpa using pollLoop_count_le s c i (maxRetries + 1) 0 0

/-- Witness for C1 with the default ten-second provider interval. -/
theorem authenticate_poll_hard_cap_witness :
    (authenticatePoll (fun _ => false) none 10).1 = AuthOutcome.timeout ∧
    pollCount (authenticatePoll (fun _ => false) none 10).2 = maxRetries ∧
    (∀ (s : Nat → Bool) (c : Option Nat) (i : Nat),
      pollCount (authenticatePoll s c i).2 ≤ maxRetries) :=
  authenticate_poll_hard_cap (fun _ => false) 10 (fun _ => rfl)

/-- C9: the time.Sleep of one provider interval precedes every CreateToken
request: every poll at time u in any trace is preceded by a sleep from
u - interval to u, and with an operator who has already approved (the very
first attempt succeeds) the run is check, one full sleep, then the first
and only poll at time interval. -/
theorem authenticate_sleep_precedes_every_poll (s : Nat → Bool)
    (c : Option Nat) (i : Nat) :
    (∀ u, PollEvent.poll u ∈ (authenticatePoll s c i).2 →
      i ≤ u ∧ PollEvent.sleepStep (u - i) u ∈ (authenticatePoll s c i).2) ∧
    authenticatePoll (fun _ => true) none i =
      (AuthOutcome.token,
        [PollEvent.ctxCheck 0, PollEvent.sleepStep 0 i, PollEvent.poll i]) := by
  constructor
  · intro u hu
    obtain ⟨t0, rfl, _, hmem⟩ :=
      pollLoop_poll_mem s c i (maxRetries + 1) 0 0 u hu
    exact ⟨by omega, by simpa using hmem⟩
  · simp [authenticatePoll, pollLoop, ctxDone, maxRetries]

/-- C4 counterexample: with the provider interval 10 and the caller context
cancelled at time 5, during the first sleep, Authenticate still issues the
CreateToken poll at the wake boundary time 10, at which the context has
long been cancelled: there is no cancellation check between waking and the
token request. -/
theorem authenticate_poll_after_cancel_cex :
    PollEvent.poll 10 ∈ (authenticatePoll (fun _ => false) (some 5) 10).2 ∧
    ctxDone (some 5) 10 = true := by decide

/-- C4 amended: the loop checks cancellation once per iteration, at the
pre-sleep boundary only; consequently every CreateToken request at time u
was preceded by a pre-sleep check at time u - interval at which the context
was not yet cancelled (but a cancellation firing during the sleep does not
prevent the request). -/
theorem authenticate_cancel_checked_before_sleep_only (s : Nat → Bool)
    (c : Option Nat) (i : Nat) :
    ∀ u, PollEvent.poll u ∈ (authenticatePoll s c i).2 →
      ctxDone c (u - i) = false := by
  intro u hu
  obtain ⟨t0, rfl, hc0, _⟩ :=
    pollLoop_poll_mem s c i (maxRetries + 1) 0 0 u hu
  simpa using hc0

/-- Witness for the amended C4 at the counterexample environment. -/
theorem authenticate_cancel_checked_before_sleep_only_witness :
    ctxDone (some 5) (10 - 10) = false :=
  authenticate_cancel_checked_before_sleep_only (fun _ => false) (some 5) 10
    10 (by decide)

/-! ## C5: the keep-alive monitor -/

theorem performKeepAlive_isNone (b : Bool) :
    (performKeepAlive b).isNone = b := by
  cases b <;> rfl

/-- Probe m runs (with its actual outcome) whenever the budget allows and
the ctx.Done branch is not taken at any wait point up to m. -/
theorem startKeepAlive_probe_mem (reach cancelAt : Nat → Bool) :
    ∀ (fuel n m : Nat), m < fuel →
      (∀ j, j ≤ m → cancelAt (n + j) = false) →
      (n + m, reach (n + m)) ∈ startKeepAlive reach cancelAt fuel n := by
  intro fuel
  induction fuel with
  | zero => intro n m hm _; omega
  | succ fuel ih =>
    intro n m hm hc
    have hcn : cancelAt n = false := by simpa using hc 0 (Nat.zero_le _)
    cases m with
    | zero =>
      simp [startKeepAlive, hcn, performKeepAlive_isNone]
    | succ k =>
      have hmem := ih (n + 1) k (by omega) (fun j hj => by
        have := hc (j + 1) (by omega)
        simpa [Nat.add_assoc, Nat.add_comm 1 j] using this)
      have heq : n + (k + 1) = n + 1 + k := by omega
      rw [heq]
      simp only [startKeepAlive, hcn, Bool.false_eq_true, if_false,
        List.mem_cons]
      right
      exact hmem

/-- C5: in the steady-state keep-alive loop, a failed probe at tick n is
recorded (logged) and does not stop the loop: as long as the shared context
has not fired by tick n + 1, the probe at tick n + 1 still runs. -/
theorem keepAlive_probe_failure_does_not_stop_loop
    (reach cancelAt : Nat → Bool) (fuel n : Nat) (hfuel : n + 1 < fuel)
    (hcancel : ∀ j, j ≤ n + 1 → cancelAt j = false)
    (hfail : reach n = false) :
    (n, false) ∈ startKeepAlive reach cancelAt fuel 0 ∧
    (n + 1, reach (n + 1)) ∈ startKeepAlive reach cancelAt fuel 0 := by
  have h1 := startKeepAlive_probe_mem reach cancelAt fuel 0 n (by omega)
    (fun j hj => by simpa using hcancel j (by omega))
  have h2 := startKeepAlive_probe_mem reach cancelAt fuel 0 (n + 1) hfuel
    (fun j hj => by simpa using hcancel j hj)
  constructor
  · simpa [hfail] using h1
  · simpa using h2

/-- Witness for C5: the probe at tick 3 fails, the probe at tick 4 runs. -/
theorem keepAlive_probe_failure_does_not_stop_loop_witness :
    (3, false) ∈
      startKeepAlive (fun k => decide (k ≠ 3)) (fun _ => false) 10 0 ∧
    (3 + 1, (fun k => decide (k ≠ 3)) (3 + 1)) ∈
      startKeepAlive (fun k => decide (k ≠ 3)) (fun _ => false) 10 0 :=
  keepAlive_probe_failure_does_not_stop_loop (fun k => decide (k ≠ 3))
    (fun _ => false) 10 3 (by decide) (fun _ _ => rfl) (by decide)

/-! ## C2, C3: the tunnel process supervisor -/

/-- C2: when the select receives the OS interrupt/terminate signal first
and the subprocess handle is set, the supervisor prints the shutdown
notice, cancels the keep-alive context, sends SIGTERM, sleeps the
one-second grace period, and returns nil -- whatever the value of
exitedByGraceEnd, i.e. regardless of whether the subprocess had already
exited. -/
theorem supervisor_signal_path (env : SupervisorEnv)
    (hsig : env.firstEvent = FirstEvent.osSignal)
    (hproc : env.processHandle = true) :
    (startSSMPortForwardingWithKeepAlive env).retErr = none ∧
    (startSSMPortForwardingWithKeepAlive env).ctxCancelledAtReturn = true ∧
    (startSSMPortForwardingWithKeepAlive env).actions =
      [SupervisorAction.registerSignalHandler,
        SupervisorAction.startCmdGoroutine] ++
      (if env.keepAlive then [SupervisorAction.startKeepAliveGoroutine]
       else []) ++
      [SupervisorAction.printShutdownNotice, SupervisorAction.cancelContext,
        SupervisorAction.sendSigterm] ++
      (if env.sigtermFails then [SupervisorAction.warnSigtermFailed]
       else []) ++
      [SupervisorAction.sleepGraceSecond] := by
  obtain ⟨ka, fe, rr, ph, sf, ex⟩ := env
  cases fe with
  | procExit => cases hsig
  | osSignal =>
    simp only at hproc
    subst hproc
    refine ⟨rfl, rfl, ?_⟩
    cases ka <;> cases sf <;> rfl

/-- Witness for C2 at the concrete signal-path environment. -/
theorem supervisor_signal_path_witness :
    (startSSMPortForwardingWithKeepAlive supSignalEnv).retErr = none ∧
    (startSSMPortForwardingWithKeepAlive supSignalEnv).ctxCancelledAtReturn
      = true ∧
    (startSSMPortForwardingWithKeepAlive supSignalEnv).actions =
      [SupervisorAction.registerSignalHandler,
        SupervisorAction.startCmdGoroutine] ++
      (if supSignalEnv.keepAlive
       then [SupervisorAction.startKeepAliveGoroutine] else []) ++
      [SupervisorAction.printShutdownNotice, SupervisorAction.cancelContext,
        SupervisorAction.sendSigterm] ++
      (if supSignalEnv.sigtermFails
       then [SupervisorAction.warnSigtermFailed] else []) ++
      [SupervisorAction.sleepGraceSecond] :=
  supervisor_signal_path supSignalEnv rfl rfl

/-- C3 counterexample: in the concrete run supSignalEnv (keep-alive on, a
signal first, the subprocess still alive when the grace second ends), at
the instant the supervisor returns the signal-handler registration is still
in place (the source has no signal.Stop) and the goroutine waiting on
cmd.Run is still running: resources created by the call outlive it. -/
theorem supervisor_resources_outlive_return_cex :
    (startSSMPortForwardingWithKeepAlive
      supSignalEnv).sigHandlerRegisteredAtReturn = true ∧
    (startSSMPortForwardingWithKeepAlive
      supSignalEnv).cmdGoroutineRunningAtReturn = true :=
  ⟨rfl, rfl⟩

/-- C3 amended: exactly one of the two events the select races (subprocess
exit delivered on errChan, OS signal on sigChan) determines the return
value -- caller cancellation is not raced, the context is created
internally from Background; the internal keep-alive context is cancelled by
the time the call returns on every path; but the signal-handler
registration always survives the return, and on the signal path the
subprocess goroutine is still running unless the subprocess exited within
the grace second. -/
theorem supervisor_exactly_one_outcome (env : SupervisorEnv) :
    (startSSMPortForwardingWithKeepAlive env).ctxCancelledAtReturn = true ∧
    (startSSMPortForwardingWithKeepAlive
      env).sigHandlerRegisteredAtReturn = true ∧
    (env.firstEvent = FirstEvent.procExit →
      (startSSMPortForwardingWithKeepAlive env).retErr = env.runResult ∧
      (startSSMPortForwardingWithKeepAlive
        env).cmdGoroutineRunningAtReturn = false) ∧
    (env.firstEvent = FirstEvent.osSignal →
      (startSSMPortForwardingWithKeepAlive env).retErr = none ∧
      (startSSMPortForwardingWithKeepAlive env).cmdGoroutineRunningAtReturn
        = !env.exitedByGraceEnd) := by
  obtain ⟨ka, fe, rr, ph, sf, ex⟩ := env
  cases fe <;> simp [startSSMPortForwardingWithKeepAlive]

/-! ## C8: the port validator -/

/-- C8: validatePort succeeds exactly when the input parses (strconv.Atoi)
to an integer in 1..65535 that no listener currently holds; a parse or
range failure performs no socket operation at all; and a successful
validation leaves the bound ports exactly as they were (the probe listener
is closed, no residual socket). -/
theorem validatePort_correct (bound : Int → Bool) (input : String) :
    ((validatePort bound input).1 = .ok () ↔
      ∃ p, atoi input = some p ∧ 1 ≤ p ∧ p ≤ 65535 ∧ bound p = false) ∧
    ((atoi input = none ∨
        (∃ p, atoi input = some p ∧ (p < 1 ∨ p > 65535))) →
      (validatePort bound input).2 = []) ∧
    ((validatePort bound input).1 = .ok () →
      applySockEvents bound (validatePort bound input).2 = bound) := by
  rcases hat : atoi input with _ | p
  · refine ⟨?_, fun _ => ?_, fun hok => ?_⟩
    · simp [validatePort, hat]
    · simp [validatePort, hat]
    · simp [validatePort, hat] at hok
  · by_cases hrange : p < 1 ∨ p > 65535
    · refine ⟨?_, fun _ => ?_, fun hok => ?_⟩
      · simp only [validatePort, hat, if_pos hrange]
        constructor
        · intro hok; cases hok
        · rintro ⟨q, hq, h1, h2, _⟩
          cases hq
          omega
      · simp [validatePort, hat, hrange]
      · simp [validatePort, hat, hrange] at hok
    · by_cases hb : bound p = true
      · refine ⟨?_, fun habs => ?_, fun hok => ?_⟩
        · simp only [validatePort, hat, if_neg hrange, isPortInUse, hb,
            if_true]
          constructor
          · intro hok; cases hok
          · rintro ⟨q, hq, _, _, hq4⟩
            cases hq
            rw [hb] at hq4
            cases hq4
        · rcases habs with habs | ⟨q, hq, hr⟩
          · cases habs
          · cases hq; exact absurd hr hrange
        · simp [validatePort, hat, hrange, isPortInUse, hb] at hok
      · have hb' : bound p = false := by simpa using hb
        refine ⟨?_, fun habs => ?_, fun _ => ?_⟩
        · simp only [validatePort, hat, if_neg hrange, isPortInUse, hb',
            Bool.false_eq_true, if_false]
          constructor
          · intro _
            exact ⟨p, rfl, by omega, by omega, hb'⟩
          · intro _; trivial
        · rcases habs with habs | ⟨q, hq, hr⟩
          · cases habs
          · cases hq; exact absurd hr hrange
        · have hev : (validatePort bound input).2 =
              [SockEvent.listenBind p, SockEvent.closeListener p] := by
            simp [validatePort, hat, hrange, isPortInUse, hb']
          rw [hev]
          funext q
          by_cases hq : q = p
          · subst hq
            simp [applySockEvents, hb']
          · simp [applySockEvents, hq]

/-! ## Lemmas about the token cache filesystem model -/

theorem mkdirOne_home (fs : FS) (p : String) (perm : Nat) :
    (mkdirOne fs p perm).home = fs.home := by
  unfold mkdirOne
  cases fs.dirs p <;> rfl

theorem mkdirOne_files (fs : FS) (p : String) (perm : Nat) :
    (mkdirOne fs p perm).files = fs.files := by
  unfold mkdirOne
  cases fs.dirs p <;> rfl

theorem mkdirOne_dirs_self (fs : FS) (p : String) (perm : Nat) :
    (mkdirOne fs p perm).dirs p = some ((fs.dirs p).getD perm) := by
  unfold mkdirOne
  cases h : fs.dirs p <;> simp [h]

theorem mkdirOne_dirs_ne (fs : FS) (p d : String) (perm : Nat)
    (hne : d ≠ p) :
    (mkdirOne fs p perm).dirs d = fs.dirs d := by
  unfold mkdirOne
  cases h : fs.dirs p <;> simp [h, hne]

theorem mkdirAll_home : ∀ (ch : List String) (fs : FS) (perm : Nat),
    (mkdirAll fs ch perm).home = fs.home := by
  intro ch
  induction ch with
  | nil => intro fs perm; rfl
  | cons p tl ih =>
    intro fs perm
    have hstep : mkdirAll fs (p :: tl) perm =
        mkdirAll (mkdirOne fs p perm) tl perm := rfl
    rw [hstep, ih, mkdirOne_home]

theorem mkdirAll_files : ∀ (ch : List String) (fs : FS) (perm : Nat),
    (mkdirAll fs ch perm).files = fs.files := by
  intro ch
  induction ch with
  | nil => intro fs perm; rfl
  | cons p tl ih =>
    intro fs perm
    have hstep : mkdirAll fs (p :: tl) perm =
        mkdirAll (mkdirOne fs p perm) tl perm := rfl
    rw [hstep, ih, mkdirOne_files]

theorem mkdirAll_dirs : ∀ (ch : List String) (fs : FS) (perm : Nat)
    (d : String),
    (mkdirAll fs ch perm).dirs d =
      if d ∈ ch then some ((fs.dirs d).getD perm) else fs.dirs d := by
  intro ch
  induction ch with
  | nil => intro fs perm d; simp [mkdirAll]
  | cons p tl ih =>
    intro fs perm d
    have hstep : mkdirAll fs (p :: tl) perm =
        mkdirAll (mkdirOne fs p perm) tl perm := rfl
    rw [hstep, ih]
    by_cases hd : d = p
    · subst hd
      by_cases hm : d ∈ tl
      · simp [hm, mkdirOne_dirs_self]
      · simp [hm, mkdirOne_dirs_self]
    · rw [mkdirOne_dirs_ne fs p d perm hd]
      by_cases hm : d ∈ tl
      · simp [hm, hd]
      · simp [hm, hd]

/-- json.Unmarshal inverts json.Marshal on every TokenCache value. -/
theorem unmarshal_marshal (t : TokenCache) :
    unmarshalTokenCache (marshalTokenCache t) = .ok t := by
  cases t
  rfl

/-- The filesystem LoadTokenCache returns is exactly the input filesystem
after the os.MkdirAll side effect of getTokenCachePath. -/
theorem load_fs_after (fs : FS) (u h : String) (hhome : fs.home = some h) :
    (LoadTokenCache fs u).2 =
      mkdirAll fs (cacheDirChain h) ownerOnlyDirPerm := by
  unfold LoadTokenCache getTokenCachePath
  rw [hhome]
  simp only []
  cases hf : (mkdirAll fs (cacheDirChain h) ownerOnlyDirPerm).files
      (cacheFilePath h u) with
  | none => simp [hf]
  | some doc =>
    cases hm : unmarshalTokenCache doc <;> simp [hf, hm]

/-! ## C6, C7, C10: the token cache -/

/-- C6: for every filesystem with a home directory and every token,
SaveTokenCache succeeds, and LoadTokenCache on the saved start URL returns
a token all of whose fields equal the saved one; and the cache file path
getTokenCachePath computes is deterministic: any two filesystems with the
same home directory map the same start URL to the same path. -/
theorem save_then_load_roundtrip (fs : FS) (t : TokenCache) (h : String)
    (hhome : fs.home = some h) :
    (SaveTokenCache fs t).1 = .ok () ∧
    (LoadTokenCache (SaveTokenCache fs t).2 t.StartUrl).1 =
      .ok (some t) ∧
    (∀ (fs1 fs2 : FS) (u : String), fs1.home = fs2.home →
      (getTokenCachePath fs1 u).1 = (getTokenCachePath fs2 u).1) := by
  have hsave : SaveTokenCache fs t =
      (.ok (), { mkdirAll fs (cacheDirChain h) ownerOnlyDirPerm with
        files := fun p => if p = cacheFilePath h t.StartUrl then
          some (marshalTokenCache t)
        else (mkdirAll fs (cacheDirChain h) ownerOnlyDirPerm).files p }) := by
    unfold SaveTokenCache getTokenCachePath
    rw [hhome]
  refine ⟨by rw [hsave], ?_, ?_⟩
  · rw [hsave]
    unfold LoadTokenCache getTokenCachePath
    rw [show ({ mkdirAll fs (cacheDirChain h) ownerOnlyDirPerm with
        files := fun p => if p = cacheFilePath h t.StartUrl then
          some (marshalTokenCache t)
        else (mkdirAll fs (cacheDirChain h) ownerOnlyDirPerm).files p } :
        FS).home = some h from by
      rw [show ({ mkdirAll fs (cacheDirChain h) ownerOnlyDirPerm with
        files := fun p => if p = cacheFilePath h t.StartUrl then
          some (marshalTokenCache t)
        else (mkdirAll fs (cacheDirChain h) ownerOnlyDirPerm).files p } :
        FS).home = (mkdirAll fs (cacheDirChain h) ownerOnlyDirPerm).home
        from rfl]
      rw [mkdirAll_home, hhome]]
    simp only []
    rw [show (mkdirAll { mkdirAll fs (cacheDirChain h) ownerOnlyDirPerm with
        files := fun p => if p = cacheFilePath h t.StartUrl then
          some (marshalTokenCache t)
        else (mkdirAll fs (cacheDirChain h) ownerOnlyDirPerm).files p }
        (cacheDirChain h) ownerOnlyDirPerm).files =
        fun p => if p = cacheFilePath h t.StartUrl then
          some (marshalTokenCache t)
        else (mkdirAll fs (cacheDirChain h) ownerOnlyDirPerm).files p
        from mkdirAll_files _ _ _]
    simp [unmarshal_marshal]
  · intro fs1 fs2 u hh
    unfold getTokenCachePath
    rw [hh]
    cases fs2.home <;> rfl

/-- Witness for C6 at a concrete filesystem and token. -/
theorem save_then_load_roundtrip_witness :
    (SaveTokenCache emptyFS sampleToken).1 = .ok () ∧
    (LoadTokenCache (SaveTokenCache emptyFS sampleToken).2
      sampleToken.StartUrl).1 = .ok (some sampleToken) ∧
    (∀ (fs1 fs2 : FS) (u : String), fs1.home = fs2.home →
      (getTokenCachePath fs1 u).1 = (getTokenCachePath fs2 u).1) :=
  save_then_load_roundtrip emptyFS sampleToken "/home/op" rfl

/-- C7: for every start URL whose cache file is absent, LoadTokenCache
returns nil token and nil error: the missing file is a cache miss, not a
failure. -/
theorem load_missing_file_is_cache_miss (fs : FS) (u h : String)
    (hhome : fs.home = some h)
    (habsent : fs.files (cacheFilePath h u) = none) :
    (LoadTokenCache fs u).1 = .ok none := by
  unfold LoadTokenCache getTokenCachePath
  rw [hhome]
  simp only []
  rw [show (mkdirAll fs (cacheDirChain h) ownerOnlyDirPerm).files = fs.files
    from mkdirAll_files _ _ _]
  rw [habsent]

/-- Witness for C7: a load against an empty filesystem. -/
theorem load_missing_file_is_cache_miss_witness :
    (LoadTokenCache emptyFS "https://x.awsapps.com/start").1 = .ok none :=
  load_missing_file_is_cache_miss emptyFS "https://x.awsapps.com/start"
    "/home/op" rfl rfl

/-- C10: LoadTokenCache is not read-only: on a filesystem with a home
directory it leaves every file and the home untouched, touches no directory
outside the cache-directory ancestor chain, creates the cache directory
with permission 0700 when it is absent, and on the chain only fills in
missing directories with 0700. -/
theorem load_creates_cache_dir_and_nothing_else (fs : FS) (u h : String)
    (hhome : fs.home = some h) :
    (LoadTokenCache fs u).2.files = fs.files ∧
    (LoadTokenCache fs u).2.home = fs.home ∧
    (fs.dirs (ssoCacheDir h) = none →
      (LoadTokenCache fs u).2.dirs (ssoCacheDir h) =
        some ownerOnlyDirPerm) ∧
    (∀ d, d ∉ cacheDirChain h →
      (LoadTokenCache fs u).2.dirs d = fs.dirs d) ∧
    (∀ d, d ∈ cacheDirChain h →
      (LoadTokenCache fs u).2.dirs d =
        some ((fs.dirs d).getD ownerOnlyDirPerm)) := by
  rw [load_fs_after fs u h hhome]
  refine ⟨mkdirAll_files _ _ _, mkdirAll_home _ _ _, ?_, ?_, ?_⟩
  · intro h0
    rw [mkdirAll_dirs]
    have hmem : ssoCacheDir h ∈ cacheDirChain h := by
      simp [cacheDirChain, ssoCacheDir]
    rw [if_pos hmem, h0]
    rfl
  · intro d hd
    rw [mkdirAll_dirs, if_neg hd]
  · intro d hd
    rw [mkdirAll_dirs, if_pos hd]

/-- Witness for C10 at the empty filesystem. -/
theorem load_creates_cache_dir_and_nothing_else_witness :
    (LoadTokenCache emptyFS "https://x.awsapps.com/start").2.files =
      emptyFS.files ∧
    (LoadTokenCache emptyFS "https://x.awsapps.com/start").2.home =
      emptyFS.home ∧
    (emptyFS.dirs (ssoCacheDir "/home/op") = none →
      (LoadTokenCache emptyFS "https://x.awsapps.com/start").2.dirs
        (ssoCacheDir "/home/op") = some ownerOnlyDirPerm) ∧
    (∀ d, d ∉ cacheDirChain "/home/op" →
      (LoadTokenCache emptyFS "https://x.awsapps.com/start").2.dirs d =
        emptyFS.dirs d) ∧
    (∀ d, d ∈ cacheDirChain "/home/op" →
      (LoadTokenCache emptyFS "https://x.awsapps.com/start").2.dirs d =
        some ((emptyFS.dirs d).getD ownerOnlyDirPerm)) :=
  load_creates_cache_dir_and_nothing_else emptyFS
    "https://x.awsapps.com/start" "/home/op" rfl

end Bifrost
